import Mathlib

/-!
Verification development for the user-profile-manager repository.

The backend (src/modules/users) is an Express/Prisma CRUD service over a
single `users` table; the frontend components QRCodeModal/QRScannerModal
encode and decode a JSON profile payload in a QR image.  The store is
modelled as a `List User` (the `users` table; `id` is its primary key and
`email` carries a unique index, see prisma/migrations), Prisma calls as
pure functions on that list, and JavaScript values crossing the validation
boundary as a small JSON value type.  Timestamps are integers
(milliseconds since epoch, as `Date.getTime()` would give).
-/

namespace Upm

/-- JSON value, the shape of `JSON.parse` results and of request bodies
after body-parsing.  Numbers are restricted to integers: no claim below
involves a fractional JSON number. -/
inductive Json where
  | null : Json
  | bool (b : Bool) : Json
  | num (n : Int) : Json
  | str (s : String) : Json
  | arr (elems : List Json) : Json
  | obj (fields : List (String × Json)) : Json

/-- Property access `o[k]` on a JavaScript object: the first binding of the
key, `none` when the key is absent (JavaScript `undefined`). -/
def jget (fields : List (String × Json)) (k : String) : Option Json :=
  (fields.find? (fun p => p.1 == k)).map (fun p => p.2)

/-- JavaScript truthiness of a JSON value. -/
def jsTruthy : Json → Bool
  | .null => false
  | .bool b => b
  | .num n => n != 0
  | .str s => s != ""
  | .arr _ => true
  | .obj _ => true

/-- Truthiness of a possibly absent (`undefined`) value. -/
def truthyOpt : Option Json → Bool
  | none => false
  | some j => jsTruthy j

/-- Lower-casing a string character by character, as
`String.prototype.toLowerCase` does on the ASCII range. -/
def toLowerStr (s : String) : String := s.map Char.toLower

/-- Whether the first list is an initial segment of the second. -/
def leadsWith : List Char → List Char → Bool
  | [], _ => true
  | _ :: _, [] => false
  | a :: as, b :: bs => a == b && leadsWith as bs

/-- Whether `needle` occurs contiguously somewhere in `hay`. -/
def hasSub : List Char → List Char → Bool
  | needle, [] => leadsWith needle []
  | needle, c :: t => leadsWith needle (c :: t) || hasSub needle t

/-- Case-insensitive substring test: Prisma's
`{ contains: pat, mode: 'insensitive' }` filter on a text column. -/
def containsCI (hay pat : String) : Bool :=
  hasSub (toLowerStr pat).toList (toLowerStr hay).toList

/-- The same filter on a nullable column: a NULL column matches nothing. -/
def optContainsCI (hay : Option String) (pat : String) : Bool :=
  match hay with
  | some h => containsCI h pat
  | none => false

/-- A row of the `users` table (prisma model `User`).  Optional columns are
nullable in the migration; `dateOfBirth`, `createdAt`, `updatedAt` are
timestamps. -/
structure User where
  id : String
  fullName : String
  email : String
  phoneNumber : Option String := none
  bio : Option String := none
  avatarUrl : Option String := none
  dateOfBirth : Option Int := none
  location : Option String := none
  createdAt : Int := 0
  updatedAt : Int := 0
deriving Repr, DecidableEq

/-- The validated list query (`GetUsersQuery` of users.validation.ts):
each key is still optional after validation because every zod field of
`getUsersQuerySchema` ends in `.optional()`, so an absent key stays
absent and the service applies its own `||` defaults. -/
structure GetUsersQuery where
  page : Option Int := none
  limit : Option Int := none
  search : Option String := none
  location : Option String := none
  sortBy : Option String := none
  sortOrder : Option String := none
deriving Repr, DecidableEq

/-- JavaScript `x || d` on a possibly absent number (`0` is falsy). -/
def jsOrInt (v : Option Int) (d : Int) : Int :=
  match v with
  | some n => if n = 0 then d else n
  | none => d

/-- JavaScript `x || d` on a possibly absent string (`""` is falsy). -/
def jsOrString (v : Option String) (d : String) : String :=
  match v with
  | some s => if s = "" then d else s
  | none => d

/-- The `OR` block of the `where` clause built by `getUsers` when a search
term is given: case-insensitive containment in fullName, email or bio
(users.service.ts lines 79-98). -/
def searchMatches (s : String) (u : User) : Bool :=
  containsCI u.fullName s || containsCI u.email s || optContainsCI u.bio s

/-- Whether a row satisfies the `where` clause `getUsers` builds: the
search group (skipped when `query.search` is absent or empty, JavaScript
truthiness) AND the location filter (likewise skipped when absent or
empty). -/
def matchesWhere (q : GetUsersQuery) (u : User) : Bool :=
  (match q.search with
   | some s => if s = "" then true else searchMatches s u
   | none => true)
  &&
  (match q.location with
   | some l => if l = "" then true else optContainsCI u.location l
   | none => true)

/-- Ordering on rows by one sortable column; `sortBy` values other than the
three named ones fall to `createdAt`, which is unreachable after
validation but mirrors building `{ [sortBy]: sortOrder }`. -/
def fieldLe (sortBy : String) (a b : User) : Bool :=
  match sortBy with
  | "fullName" => decide (a.fullName ≤ b.fullName)
  | "email" => decide (a.email ≤ b.email)
  | "updatedAt" => decide (a.updatedAt ≤ b.updatedAt)
  | _ => decide (a.createdAt ≤ b.createdAt)

/-- The comparator `orderBy = { [sortBy]: sortOrder }` induces. -/
def userLe (sortBy sortOrder : String) (a b : User) : Bool :=
  if sortOrder = "asc" then fieldLe sortBy a b else fieldLe sortBy b a

/-- The store's `findMany({ orderBy })` ordering step. -/
def sortUsers (sortBy sortOrder : String) (l : List User) : List User :=
  l.mergeSort (userLe sortBy sortOrder)

/-- Pagination metadata computed by `getUsers`. -/
structure Pagination where
  total : Nat
  page : Int
  limit : Int
  totalPages : Int
  hasNext : Bool
  hasPrevious : Bool
deriving Repr, DecidableEq

/-- Result shape of `getUsers`. -/
structure GetUsersResult where
  users : List User
  pagination : Pagination
deriving Repr, DecidableEq

/-- userService.getUsers (users.service.ts lines 67-144): defaults via
`||`, `skip = (page-1)*limit`, one filtered/sorted/paginated `findMany`
and one `count` over the same `where` clause, and
`totalPages = Math.ceil(total/limit)`.  `Math.ceil(total/limit)` is
written `(total + limit - 1) / limit` in natural division, which agrees
with it whenever `limit ≥ 1` — the only regime reachable here, since
validation bounds `limit` to `1..100` and the default is `10`. -/
def getUsers (db : List User) (q : GetUsersQuery) : GetUsersResult :=
  let page := jsOrInt q.page 1
  let limit := jsOrInt q.limit 10
  let skip := (page - 1) * limit
  let filtered := db.filter (matchesWhere q)
  let sorted := sortUsers (jsOrString q.sortBy "createdAt") (jsOrString q.sortOrder "desc") filtered
  let users := (sorted.drop skip.toNat).take limit.toNat
  let total := filtered.length
  let totalPages : Int := ((total + limit.toNat - 1) / limit.toNat : Nat)
  { users := users
    pagination :=
      { total := total
        page := page
        limit := limit
        totalPages := totalPages
        hasNext := decide (page < totalPages)
        hasPrevious := decide (page > 1) } }

/-- The error class of src/utils/error (fields visible in
errorHandler.middleware.ts): a message and an HTTP status code. -/
structure AppError where
  message : String
  statusCode : Int
deriving Repr, DecidableEq

/-- userService.getUserById (users.service.ts lines 54-64):
`findUnique({ where: { id } })`, 404 when no row matches. -/
def getUserById (db : List User) (id : String) : Except AppError User :=
  match db.find? (fun u => u.id == id) with
  | some u => .ok u
  | none => .error ⟨"User not found", 404⟩

/-- userService.deleteUser (users.service.ts lines 177-190):
`prisma.user.delete` removes the row with the given primary key and
throws P2025 when it is absent, which the service maps to 404. -/
def deleteUser (db : List User) (id : String) : Except AppError (List User) :=
  if db.any (fun u => u.id == id) then
    .ok (db.filter (fun u => !(u.id == id)))
  else
    .error ⟨"User not found", 404⟩

/-- Outcome of a failed Prisma call as the service's catch blocks see it:
a `PrismaClientKnownRequestError` carrying its `code`, or any other
thrown error. -/
inductive PrismaError where
  | known (code : String) : PrismaError
  | other : PrismaError
deriving Repr, DecidableEq

/-- Input to userService.createUser (`CreateUserData`). -/
structure CreateUserData where
  fullName : String
  email : String
  phoneNumber : Option String := none
  bio : Option String := none
  avatarUrl : Option String := none
  dateOfBirth : Option Int := none
  location : Option String := none
deriving Repr, DecidableEq

/-- The store side of `prisma.user.create`: the unique index on `email`
(prisma/migrations) rejects a duplicate email with code P2002, otherwise
the row is inserted with server-assigned id and `createdAt = updatedAt =
now`. -/
def prismaCreate (db : List User) (data : CreateUserData) (newId : String) (now : Int) :
    Except PrismaError User :=
  if db.any (fun u => u.email == data.email) then
    .error (.known "P2002")
  else
    .ok { id := newId, fullName := data.fullName, email := data.email,
          phoneNumber := data.phoneNumber, bio := data.bio, avatarUrl := data.avatarUrl,
          dateOfBirth := data.dateOfBirth, location := data.location,
          createdAt := now, updatedAt := now }

/-- The catch block of userService.createUser (users.service.ts lines
43-50): P2002 becomes 409, every other store failure becomes 500. -/
def createUserFromStore (storeResult : Except PrismaError User) : Except AppError User :=
  match storeResult with
  | .ok user => .ok user
  | .error (.known code) =>
      if code == "P2002" then .error ⟨"User with this email already exists", 409⟩
      else .error ⟨"Failed to create user", 500⟩
  | .error .other => .error ⟨"Failed to create user", 500⟩

/-- userService.createUser (users.service.ts lines 28-51) against the list
store. -/
def createUser (db : List User) (data : CreateUserData) (newId : String) (now : Int) :
    Except AppError User :=
  createUserFromStore (prismaCreate db data newId now)

/-- Input to userService.updateUser (`UpdateUserData`): every field
optional; `some v` is a field present in the request, `none` a field left
out (`undefined`, spread away by the `!== undefined &&` guards). -/
structure UpdateUserData where
  fullName : Option String := none
  email : Option String := none
  phoneNumber : Option String := none
  bio : Option String := none
  avatarUrl : Option String := none
  dateOfBirth : Option Int := none
  location : Option String := none
deriving Repr, DecidableEq

/-- Application of the `data` object userService.updateUser passes to
`prisma.user.update`: supplied fields overwrite, absent fields keep the
stored value.  Modelled from the spec: the prisma schema file is not in
the repository snapshot, so its `@updatedAt` attribute — "updatedAt
refreshed to now on any successful update" (spec §3, §4.2) — is taken
from the spec; the migration shows `updated_at` has no database-side
default, so the refresh is client-generated exactly as `@updatedAt`
does. -/
def applyUpdate (data : UpdateUserData) (now : Int) (u : User) : User :=
  { u with
    fullName := match data.fullName with | some v => v | none => u.fullName,
    email := match data.email with | some v => v | none => u.email,
    phoneNumber := match data.phoneNumber with | some v => some v | none => u.phoneNumber,
    bio := match data.bio with | some v => some v | none => u.bio,
    avatarUrl := match data.avatarUrl with | some v => some v | none => u.avatarUrl,
    dateOfBirth := match data.dateOfBirth with | some v => some v | none => u.dateOfBirth,
    location := match data.location with | some v => some v | none => u.location,
    updatedAt := now }

/-- userService.updateUser (users.service.ts lines 147-174):
`prisma.user.update` throws P2025 (mapped to 404) when the id is absent
and P2002 (mapped to 409) when the supplied email collides with another
row under the unique index; otherwise the row is patched in place.
Returns the updated row and the updated table. -/
def updateUser (db : List User) (id : String) (data : UpdateUserData) (now : Int) :
    Except AppError (User × List User) :=
  match db.find? (fun u => u.id == id) with
  | none => .error ⟨"User not found", 404⟩
  | some u =>
      if (match data.email with
          | some e => db.any (fun v => v.email == e && !(v.id == id))
          | none => false) then
        .error ⟨"User with this email already exists", 409⟩
      else
        .ok (applyUpdate data now u,
             db.map (fun v => if v.id == id then applyUpdate data now v else v))

/-! ### Validation layer (users.validation.ts) -/

/-- Decimal digit run to its value; `none` when empty or a non-digit
appears. -/
def digitsVal (l : List Char) : Option Nat :=
  if l ≠ [] && l.all Char.isDigit then
    some (l.foldl (fun a c => 10 * a + (c.toNat - 48)) 0)
  else none

/-- Split at every occurrence of a separator character, the list analogue
of `String.prototype.split` with a one-character separator. -/
def splitOnChar (sep : Char) : List Char → List (List Char)
  | [] => [[]]
  | c :: t =>
      let r := splitOnChar sep t
      if c == sep then [] :: r
      else
        match r with
        | h :: rest => (c :: h) :: rest
        | [] => [[c]]

/-- ASCII whitespace for the leading/trailing trim `Number()` performs. -/
def isJsSpace (c : Char) : Bool :=
  c == ' ' || c == '\t' || c == '\n' || c == '\r'

/-- Trim on character lists. -/
def trimChars (l : List Char) : List Char :=
  ((l.dropWhile isJsSpace).reverse.dropWhile isJsSpace).reverse

/-- JavaScript `Number(s)` followed by zod's `.int()` integrality check,
for decimal notation: whitespace is trimmed, the empty string is `0`, an
optional sign precedes a digit run with an optional all-zero fraction;
anything else (NaN, or a number with a fractional part, which `.int()`
then rejects) is `none`.  Exotic accepted spellings (hex, exponents) are
outside this model and outside every claim; the schema theorems therefore
quantify over the coercion function and use this one only as a concrete
instance. -/
def jsNumberInt (s : String) : Option Int :=
  let t := trimChars s.toList
  if t.isEmpty then some 0
  else
    let signRest : Bool × List Char :=
      match t with
      | '-' :: r => (true, r)
      | '+' :: r => (false, r)
      | r => (false, r)
    let core : Option Nat :=
      match splitOnChar '.' signRest.2 with
      | [ip] => digitsVal ip
      | [ip, fp] => if fp.all (fun c => c == '0') then digitsVal ip else none
      | _ => none
    core.map (fun n => if signRest.1 then -(n : Int) else (n : Int))

/-- Character class `[A-Za-z0-9_'+\-\.]` of zod's email pattern's local
part. -/
def emailLocalChar (c : Char) : Bool :=
  c.isAlpha || c.isDigit || c == '_' || c == '\'' || c == '+' || c == '-' || c == '.'

/-- Final character class `[A-Za-z0-9_+-]` of the local part. -/
def emailLocalLastChar (c : Char) : Bool :=
  c.isAlpha || c.isDigit || c == '_' || c == '+' || c == '-'

/-- No two consecutive dots (the `(?!.*\.\.)` lookahead). -/
def noDoubleDot : List Char → Bool
  | '.' :: '.' :: _ => false
  | _ :: t => noDoubleDot t
  | [] => true

/-- Local part `(?!\.)([A-Za-z0-9_'+\-\.]*)[A-Za-z0-9_+-]`: nonempty, all
characters in class, not starting with a dot, no double dot, last
character in the narrower class. -/
def emailLocalOk (l : List Char) : Bool :=
  match l with
  | [] => false
  | c :: _ =>
      !(c == '.') && l.all emailLocalChar && noDoubleDot l &&
        (match l.getLast? with
         | some d => emailLocalLastChar d
         | none => false)

/-- One domain label `[A-Za-z0-9][A-Za-z0-9\-]*`. -/
def emailLabelOk (l : List Char) : Bool :=
  match l with
  | [] => false
  | c :: t => (c.isAlpha || c.isDigit) && t.all (fun d => d.isAlpha || d.isDigit || d == '-')

/-- Top-level domain `[A-Za-z]{2,}`. -/
def emailTldOk (l : List Char) : Bool :=
  decide (2 ≤ l.length) && l.all Char.isAlpha

/-- Domain `([A-Za-z0-9][A-Za-z0-9\-]*\.)+[A-Za-z]{2,}`: at least one
label, a dot, and a letters-only tail. -/
def emailDomainOk (parts : List (List Char)) : Bool :=
  match parts.reverse with
  | [] => false
  | tld :: labels => !labels.isEmpty && emailTldOk tld && labels.all emailLabelOk

/-- zod's `z.string().email()` pattern
`^(?!\.)(?!.*\.\.)([A-Za-z0-9_'+\-\.]*)[A-Za-z0-9_+-]@([A-Za-z0-9][A-Za-z0-9\-]*\.)+[A-Za-z]{2,}$`:
exactly one `@` (no character class admits one), a valid local part and a
valid domain. -/
def zodEmailOk (s : String) : Bool :=
  match splitOnChar '@' s.toList with
  | [localPart, domain] => emailLocalOk localPart && emailDomainOk (splitOnChar '.' domain)
  | _ => false

/-- The phone pattern `/^\+?[1-9]\d{1,14}$/` of `userSchema.phoneNumber`. -/
def phoneOk (s : String) : Bool :=
  let l := match s.toList with
    | '+' :: t => t
    | t => t
  match l with
  | c :: t => ('1' ≤ c && c ≤ '9') && t.all Char.isDigit &&
      decide (1 ≤ t.length) && decide (t.length ≤ 14)
  | [] => false

/-- A required string field with a predicate: absent or non-string input
fails, a string failing the predicate fails. -/
def parseStrField (check : String → Bool) : Option Json → Option String
  | some (.str s) => if check s then some s else none
  | _ => none

/-- An `.optional()` string field: absent passes as `none`, a present
value must be a string satisfying the predicate. -/
def parseOptStrField (check : String → Bool) : Option Json → Option (Option String)
  | none => some none
  | some (.str s) => if check s then some (some s) else none
  | some _ => none

/-- The `z.coerce.date().optional()` field: absent passes as `none`; a
present value goes through `new Date(v)` — the `toDate` argument, an
external JavaScript behaviour; an Invalid Date (`none`) fails.  There is
no constraint beyond coercion: in particular no comparison against the
current time. -/
def parseOptDateField (toDate : Json → Option Int) : Option Json → Option (Option Int)
  | none => some none
  | some j =>
      match toDate j with
      | some d => some (some d)
      | none => none

/-- createUserSchema (users.validation.ts lines 18-22): `userSchema` with
`id`, `createdAt`, `updatedAt` omitted.  A zod object in its default
(strip) mode reads only its shape's keys and drops every other key of the
input object without error.  `urlOk` stands for `z.string().url()`'s
`new URL` test on `avatarUrl` (external behaviour, irrelevant to every
claim below). -/
def createUserSchemaParse (urlOk : String → Bool) (toDate : Json → Option Int)
    (body : List (String × Json)) : Option CreateUserData :=
  match parseStrField (fun s => 1 ≤ s.length && s.length ≤ 100) (jget body "fullName"),
        parseStrField zodEmailOk (jget body "email"),
        parseOptStrField phoneOk (jget body "phoneNumber"),
        parseOptStrField (fun s => s.length ≤ 500) (jget body "bio"),
        parseOptStrField urlOk (jget body "avatarUrl"),
        parseOptDateField toDate (jget body "dateOfBirth"),
        parseOptStrField (fun s => s.length ≤ 100) (jget body "location") with
  | some fn, some em, some ph, some bi, some av, some dob, some loc =>
      some { fullName := fn, email := em, phoneNumber := ph, bio := bi,
             avatarUrl := av, dateOfBirth := dob, location := loc }
  | _, _, _, _, _, _, _ => none

/-- updateUserSchema (users.validation.ts lines 25-29): the same shape
with every field `.partial()`-optional. -/
def updateUserSchemaParse (urlOk : String → Bool) (toDate : Json → Option Int)
    (body : List (String × Json)) : Option UpdateUserData :=
  match parseOptStrField (fun s => 1 ≤ s.length && s.length ≤ 100) (jget body "fullName"),
        parseOptStrField zodEmailOk (jget body "email"),
        parseOptStrField phoneOk (jget body "phoneNumber"),
        parseOptStrField (fun s => s.length ≤ 500) (jget body "bio"),
        parseOptStrField urlOk (jget body "avatarUrl"),
        parseOptDateField toDate (jget body "dateOfBirth"),
        parseOptStrField (fun s => s.length ≤ 100) (jget body "location") with
  | some fn, some em, some ph, some bi, some av, some dob, some loc =>
      some { fullName := fn, email := em, phoneNumber := ph, bio := bi,
             avatarUrl := av, dateOfBirth := dob, location := loc }
  | _, _, _, _, _, _, _ => none

/-- The shape keys of `userSchema` minus the omitted trio — the only keys
`createUserSchemaParse`/`updateUserSchemaParse` read. -/
def createShapeKeys : List String :=
  ["fullName", "email", "phoneNumber", "bio", "avatarUrl", "dateOfBirth", "location"]

/-- The date-of-birth validation of UserProfileForm.tsx (lines 139-145):
a supplied birth date strictly later than today is an error. -/
def validateDateOfBirthForm (dateOfBirth : Option Int) (today : Int) : Option String :=
  match dateOfBirth with
  | some birthDate =>
      if today < birthDate then some "Date of birth cannot be in the future" else none
  | none => none

/-- Raw query-string input to getUsersQuerySchema: each parameter is
either absent or a string. -/
structure GetUsersQueryInput where
  page : Option String := none
  limit : Option String := none
  search : Option String := none
  location : Option String := none
  sortBy : Option String := none
  sortOrder : Option String := none
deriving Repr, DecidableEq

/-- The `page` field `z.coerce.number().int().min(1).default(1).optional()`:
the outer `.optional()` lets an absent key through untouched (so the
default inside it never fires and the service's `||` supplies it); a
present string is coerced and must be an integer at least 1. -/
def parsePageField (toNumber : String → Option Int) : Option String → Option (Option Int)
  | none => some none
  | some s =>
      match toNumber s with
      | some n => if 1 ≤ n then some (some n) else none
      | none => none

/-- The `limit` field `z.coerce.number().int().min(1).max(100).default(10).optional()`. -/
def parseLimitField (toNumber : String → Option Int) : Option String → Option (Option Int)
  | none => some none
  | some s =>
      match toNumber s with
      | some n => if 1 ≤ n && n ≤ 100 then some (some n) else none
      | none => none

/-- An enum field `z.enum(values).default(d).optional()`: absent passes
through, a present string must be one of the values. -/
def parseEnumField (values : List String) : Option String → Option (Option String)
  | none => some none
  | some s => if values.contains s then some (some s) else none

/-- Allowed `sortBy` values. -/
def sortByValues : List String := ["fullName", "email", "createdAt", "updatedAt"]

/-- Allowed `sortOrder` values. -/
def sortOrderValues : List String := ["asc", "desc"]

/-- getUsersQuerySchema (users.validation.ts lines 40-47).  `toNumber`
stands for `Number()` coercion composed with the `.int()` check (see
`jsNumberInt` for the concrete decimal instance). -/
def getUsersQuerySchemaParse (toNumber : String → Option Int) (inp : GetUsersQueryInput) :
    Option GetUsersQuery :=
  match parsePageField toNumber inp.page, parseLimitField toNumber inp.limit,
        parseEnumField sortByValues inp.sortBy, parseEnumField sortOrderValues inp.sortOrder with
  | some p, some l, some sb, some so =>
      some { page := p, limit := l, search := inp.search, location := inp.location,
             sortBy := sb, sortOrder := so }
  | _, _, _, _ => none

/-! ### QR encode/decode (QRCodeModal.tsx / QRScannerModal.tsx) -/

/-- The client-side `User` of src/lib/types as `generateQRData` reads it
(the file itself is not in the snapshot; the fields and their
string/optional shape are exactly those the component accesses, with
`dateOfBirth` an ISO string on the client). -/
structure ProfileUser where
  fullName : String
  email : String
  phoneNumber : Option String := none
  bio : Option String := none
  location : Option String := none
  dateOfBirth : Option String := none
  avatarUrl : Option String := none
deriving Repr, DecidableEq

/-- JavaScript `x || ''` on a string-or-undefined value. -/
def jsOrEmpty (v : Option String) : String :=
  match v with
  | some s => s
  | none => ""

/-- generateQRData (QRCodeModal.tsx lines 18-32): the object serialised
into the QR image, absent optional fields mapped to `''` and a fixed
`type` tag. -/
def generateQRData (user : ProfileUser) : Json :=
  .obj [("fullName", .str user.fullName),
        ("email", .str user.email),
        ("phoneNumber", .str (jsOrEmpty user.phoneNumber)),
        ("bio", .str (jsOrEmpty user.bio)),
        ("location", .str (jsOrEmpty user.location)),
        ("dateOfBirth", .str (jsOrEmpty user.dateOfBirth)),
        ("avatarUrl", .str (jsOrEmpty user.avatarUrl)),
        ("type", .str "user_profile")]

/-- The decoded payload (`ScannedUserData` of QRScannerModal.tsx); the
fields hold whatever JSON values the payload carried. -/
structure ScannedUserData where
  fullName : Json
  email : Json
  phoneNumber : Json
  bio : Json
  location : Json
  dateOfBirth : Json
  avatarUrl : Json
  type : Json

/-- JavaScript `v || ''` on a JSON field read from the parsed payload. -/
def jsOrEmptyJson (v : Option Json) : Json :=
  match v with
  | some j => if jsTruthy j then j else .str ""
  | none => .str ""

/-- parseQRData (QRScannerModal.tsx lines 429-452).  The argument is the
outcome of `JSON.parse` on the scanned string: `none` models a parse
error, which the surrounding try/catch turns into `null`.  A non-object
result either yields `undefined` property reads (guard false) or, for the
`null` literal, a TypeError swallowed by the same catch — `none` either
way.  The guard accepts exactly `type === 'user_profile'` with truthy
`fullName` and `email`. -/
def parseQRData (data : Option Json) : Option ScannedUserData :=
  match data with
  | some (.obj fields) =>
      if (match jget fields "type" with
          | some (.str t) => t == "user_profile"
          | _ => false)
          && truthyOpt (jget fields "fullName") && truthyOpt (jget fields "email") then
        some { fullName := (jget fields "fullName").getD .null,
               email := (jget fields "email").getD .null,
               phoneNumber := jsOrEmptyJson (jget fields "phoneNumber"),
               bio := jsOrEmptyJson (jget fields "bio"),
               location := jsOrEmptyJson (jget fields "location"),
               dateOfBirth := jsOrEmptyJson (jget fields "dateOfBirth"),
               avatarUrl := jsOrEmptyJson (jget fields "avatarUrl"),
               type := (jget fields "type").getD .null }
      else none
  | _ => none

/-! ### Shared lemmas -/

/-- Property lookup skips a binding with a different key. -/
theorem jget_cons_ne (k k' : String) (v : Json) (body : List (String × Json))
    (h : ¬k = k') : jget ((k, v) :: body) k' = jget body k' := by
  have hb : (k == k') = false := by simpa using h
  simp [jget, List.find?, hb]

/-! ### Claim theorems -/

/-- C4: createUser fails with Conflict (409) exactly when the store
reports a unique-constraint violation (P2002) for an already-existing
email, fails with Internal (500) for every other persistence failure, and
returns a user only when the store succeeded. -/
theorem createUser_conflict_mapping (res : Except PrismaError User) (db : List User)
    (data : CreateUserData) (newId : String) (now : Int) :
    (createUserFromStore res = .error ⟨"User with this email already exists", 409⟩ ↔
      res = .error (.known "P2002")) ∧
    (∀ e, res = .error e → ¬e = .known "P2002" →
      createUserFromStore res = .error ⟨"Failed to create user", 500⟩) ∧
    (∀ u, createUserFromStore res = .ok u → res = .ok u) ∧
    ((∃ u, createUserFromStore res = .ok u) ↔ ∃ u, res = .ok u) ∧
    (createUser db data newId now = .error ⟨"User with this email already exists", 409⟩ ↔
      db.any (fun u => u.email == data.email) = true) := by
  refine ⟨?_, ?_, ?_, ?_, ?_⟩
  · cases res with
    | ok u => simp [createUserFromStore]
    | error e =>
      cases e with
      | known c => by_cases hc : c = "P2002" <;> simp [createUserFromStore, hc]
      | other => simp [createUserFromStore]
  · intro e he hne
    subst he
    cases e with
    | known c =>
      have hc : ¬c = "P2002" := fun h => hne (by rw [h])
      simp [createUserFromStore, hc]
    | other => simp [createUserFromStore]
  · intro u h
    cases res with
    | ok v => simpa [createUserFromStore] using h
    | error e =>
      cases e with
      | known c => by_cases hc : c = "P2002" <;> simp [createUserFromStore, hc] at h
      | other => simp [createUserFromStore] at h
  · cases res with
    | ok v => simp [createUserFromStore]
    | error e =>
      cases e with
      | known c => by_cases hc : c = "P2002" <;> simp [createUserFromStore, hc]
      | other => simp [createUserFromStore]
  · by_cases hany : db.any (fun u => u.email == data.email) = true <;>
      simp [createUser, prismaCreate, createUserFromStore, hany]

/-- C5: after a successful hard delete of `id`, fetching `id` yields
NotFound (404); and deleting an `id` that no row carries yields NotFound
itself. -/
theorem deleteUser_then_getUserById (db : List User) (id : String) :
    (∀ db', deleteUser db id = .ok db' →
      getUserById db' id = .error ⟨"User not found", 404⟩) ∧
    ((∀ u, u ∈ db → ¬u.id = id) →
      deleteUser db id = .error ⟨"User not found", 404⟩) := by
  constructor
  · intro db' h
    by_cases hany : db.any (fun u => u.id == id) = true
    · rw [deleteUser, if_pos hany] at h
      have hdb : db' = db.filter (fun u => !(u.id == id)) := by
        cases h; rfl
      subst hdb
      have hnone : (db.filter (fun u => !(u.id == id))).find? (fun u => u.id == id) = none := by
        rw [List.find?_eq_none]
        intro x hx
        have := (List.mem_filter.mp hx).2
        simp_all
      rw [getUserById, hnone]
    · rw [deleteUser, if_neg hany] at h
      cases h
  · intro hall
    have hany : db.any (fun u => u.id == id) = false := by
      rw [List.any_eq_false]
      intro u hu
      simpa using hall u hu
    rw [deleteUser, hany]
    simp

/-- C3: a successful partial update changes exactly the supplied fields,
keeps every absent field's stored value, never touches `id`/`createdAt`,
and refreshes `updatedAt` to now regardless of whether any supplied value
differs from the stored one. -/
theorem updateUser_frame (db : List User) (id : String) (data : UpdateUserData) (now : Int)
    (u u' : User) (db' : List User)
    (hfind : db.find? (fun v => v.id == id) = some u)
    (hok : updateUser db id data now = .ok (u', db')) :
    u'.id = u.id ∧ u'.createdAt = u.createdAt ∧ u'.updatedAt = now ∧
    (data.fullName = none → u'.fullName = u.fullName) ∧
    (∀ v, data.fullName = some v → u'.fullName = v) ∧
    (data.email = none → u'.email = u.email) ∧
    (∀ v, data.email = some v → u'.email = v) ∧
    (data.phoneNumber = none → u'.phoneNumber = u.phoneNumber) ∧
    (∀ v, data.phoneNumber = some v → u'.phoneNumber = some v) ∧
    (data.bio = none → u'.bio = u.bio) ∧
    (∀ v, data.bio = some v → u'.bio = some v) ∧
    (data.avatarUrl = none → u'.avatarUrl = u.avatarUrl) ∧
    (∀ v, data.avatarUrl = some v → u'.avatarUrl = some v) ∧
    (data.dateOfBirth = none → u'.dateOfBirth = u.dateOfBirth) ∧
    (∀ v, data.dateOfBirth = some v → u'.dateOfBirth = some v) ∧
    (data.location = none → u'.location = u.location) ∧
    (∀ v, data.location = some v → u'.location = some v) ∧
    db' = db.map (fun v => if v.id == id then applyUpdate data now v else v) := by
  have key : u' = applyUpdate data now u ∧
      db' = db.map (fun v => if v.id == id then applyUpdate data now v else v) := by
    by_cases hc : (match data.email with
        | some e => db.any (fun v => v.email == e && !(v.id == id))
        | none => false) = true
    · simp [updateUser, hfind, hc] at hok
    · simp [updateUser, hfind, hc] at hok
      exact ⟨hok.1.symm, by simpa using hok.2.symm⟩
  obtain ⟨h1, h2⟩ := key
  subst h1
  refine ⟨rfl, rfl, rfl, ?_, ?_, ?_, ?_, ?_, ?_, ?_, ?_, ?_, ?_, ?_, ?_, ?_, ?_, h2⟩ <;>
    first
      | (intro h; simp [applyUpdate, h])
      | (intro v h; simp [applyUpdate, h])

/-- Witness for C3 at a one-row table and a `{bio := "x"}` patch: the
updated row got `updatedAt = 5` and kept its `fullName`. -/
theorem updateUser_frame_witness :
    ({ id := "u1", fullName := "Ada", email := "ada@example.com",
       bio := some "x", createdAt := 1, updatedAt := 5 : User}).updatedAt = 5 ∧
    ({ id := "u1", fullName := "Ada", email := "ada@example.com",
       bio := some "x", createdAt := 1, updatedAt := 5 : User}).fullName =
      ({ id := "u1", fullName := "Ada", email := "ada@example.com",
         bio := some "old", createdAt := 1, updatedAt := 1 : User}).fullName :=
  let h := updateUser_frame
    [{ id := "u1", fullName := "Ada", email := "ada@example.com",
       bio := some "old", createdAt := 1, updatedAt := 1 }] "u1" { bio := some "x" } 5
    { id := "u1", fullName := "Ada", email := "ada@example.com",
      bio := some "old", createdAt := 1, updatedAt := 1 }
    { id := "u1", fullName := "Ada", email := "ada@example.com",
      bio := some "x", createdAt := 1, updatedAt := 5 }
    [{ id := "u1", fullName := "Ada", email := "ada@example.com",
       bio := some "x", createdAt := 1, updatedAt := 5 }]
    (by rfl) (by rfl)
  ⟨h.2.2.1, h.2.2.2.1 rfl⟩

/-- C6 counterexample: a create body carrying an `id` key (with otherwise
valid fields) is accepted by createUserSchema — the zod object is in
default strip mode, so the server-assigned keys are dropped, not
rejected. -/
theorem createUserSchema_accepts_id_key :
    createUserSchemaParse (fun _ => true) (fun _ => none)
      [("fullName", Json.str "Ada"), ("email", Json.str "ada@example.com"),
       ("id", Json.str "f47ac10b-58cc-4372-a567-0e02b2c3d479")] =
    some { fullName := "Ada", email := "ada@example.com" } := by decide

/-- C6 (amended): createUserSchema ignores every key outside its shape —
in particular `id`, `createdAt` and `updatedAt` — so a body carrying one
parses exactly as the body without it, the key silently stripped. -/
theorem createUserSchema_strips_unknown_keys (urlOk : String → Bool)
    (toDate : Json → Option Int) (body : List (String × Json)) (k : String) (v : Json)
    (hk : ¬k ∈ createShapeKeys) :
    createUserSchemaParse urlOk toDate ((k, v) :: body) =
      createUserSchemaParse urlOk toDate body := by
  have hne : ∀ k', k' ∈ createShapeKeys → jget ((k, v) :: body) k' = jget body k' :=
    fun k' hk' => jget_cons_ne k k' v body (fun h => hk (h ▸ hk'))
  simp only [createUserSchemaParse,
    hne "fullName" (by decide), hne "email" (by decide), hne "phoneNumber" (by decide),
    hne "bio" (by decide), hne "avatarUrl" (by decide), hne "dateOfBirth" (by decide),
    hne "location" (by decide)]

/-- Witness for the amended C6: prepending `("id", …)` to a valid body
leaves the parse unchanged. -/
theorem createUserSchema_strips_unknown_keys_witness :
    createUserSchemaParse (fun _ => true) (fun _ => none)
        [("id", Json.str "f47ac10b-58cc-4372-a567-0e02b2c3d479"),
         ("fullName", Json.str "Ada"), ("email", Json.str "ada@example.com")] =
      createUserSchemaParse (fun _ => true) (fun _ => none)
        [("fullName", Json.str "Ada"), ("email", Json.str "ada@example.com")] :=
  createUserSchema_strips_unknown_keys (fun _ => true) (fun _ => none)
    [("fullName", Json.str "Ada"), ("email", Json.str "ada@example.com")]
    "id" (Json.str "f47ac10b-58cc-4372-a567-0e02b2c3d479") (by decide)

/-- C7: a `dateOfBirth` strictly in the future passes the server-side
create schema — `z.coerce.date().optional()` carries no future-date
constraint — while the repository's own client-side form validation
(UserProfileForm.tsx) rejects exactly that input with "Date of birth
cannot be in the future".  Timestamps in milliseconds: 32503680000000 is
3000-01-01, 1760140800000 is 2025-10-11. -/
theorem createUserSchema_accepts_future_dateOfBirth :
    createUserSchemaParse (fun _ => true)
        (fun j => match j with
          | .str "3000-01-01" => some 32503680000000
          | _ => none)
        [("fullName", Json.str "Ada"), ("email", Json.str "ada@example.com"),
         ("dateOfBirth", Json.str "3000-01-01")] =
      some { fullName := "Ada", email := "ada@example.com",
             dateOfBirth := some 32503680000000 } ∧
    validateDateOfBirthForm (some 32503680000000) 1760140800000 =
      some "Date of birth cannot be in the future" := by
  constructor
  · decide
  · decide

/-- Reading a string-valued field back through `v || ''` is the identity:
a nonempty string is truthy, and the empty string falls to `''` which is
itself. -/
theorem jsOrEmptyJson_str (x : String) : jsOrEmptyJson (some (.str x)) = .str x := by
  by_cases h : x = "" <;> simp [jsOrEmptyJson, jsTruthy, h]

/-- C9: encoding a profile with `generateQRData` and decoding with
`parseQRData` reproduces every field value, absent optional fields having
become the empty string; and decoding rejects any object payload whose
`type` is not the string "user_profile" or that lacks a `fullName` or
`email` key. -/
theorem qr_encode_decode (u : ProfileUser) (hf : ¬u.fullName = "") (he : ¬u.email = "") :
    (parseQRData (some (generateQRData u)) =
      some { fullName := .str u.fullName, email := .str u.email,
             phoneNumber := .str (jsOrEmpty u.phoneNumber),
             bio := .str (jsOrEmpty u.bio),
             location := .str (jsOrEmpty u.location),
             dateOfBirth := .str (jsOrEmpty u.dateOfBirth),
             avatarUrl := .str (jsOrEmpty u.avatarUrl),
             type := .str "user_profile" }) ∧
    (∀ fields, (match jget fields "type" with
        | some (.str t) => t == "user_profile"
        | _ => false) = false → parseQRData (some (.obj fields)) = none) ∧
    (∀ fields, jget fields "fullName" = none → parseQRData (some (.obj fields)) = none) ∧
    (∀ fields, jget fields "email" = none → parseQRData (some (.obj fields)) = none) := by
  have hf' : (u.fullName != "") = true := by simpa using hf
  have he' : (u.email != "") = true := by simpa using he
  refine ⟨?_, ?_, ?_, ?_⟩
  · simp [parseQRData, generateQRData, jget, List.find?, truthyOpt, jsTruthy,
      hf', he', jsOrEmptyJson_str]
  · intro fields hcond
    simp [parseQRData, hcond]
  · intro fields hcond
    simp [parseQRData, hcond, truthyOpt]
  · intro fields hcond
    simp [parseQRData, hcond, truthyOpt]

/-- Witness for C9: a concrete profile with an absent phone number and a
set bio round-trips, the absent fields as empty strings. -/
theorem qr_encode_decode_witness :
    parseQRData (some (generateQRData
        { fullName := "Ada", email := "ada@example.com", bio := some "hi" })) =
      some { fullName := .str "Ada", email := .str "ada@example.com",
             phoneNumber := .str "", bio := .str "hi", location := .str "",
             dateOfBirth := .str "", avatarUrl := .str "",
             type := .str "user_profile" } :=
  (qr_encode_decode { fullName := "Ada", email := "ada@example.com", bio := some "hi" }
    (by decide) (by decide)).1

/-- C10: parseQRData is a total function of the `JSON.parse` outcome: it
returns a profile or `none`, and returns `none` whenever the input failed
to parse, parsed to a non-object, has a `type` other than the string
"user_profile", or has a missing or empty `fullName` or `email`. -/
theorem parseQRData_total (jsonParse : String → Option Json) (s : String) :
    ((∃ p, parseQRData (jsonParse s) = some p) ∨ parseQRData (jsonParse s) = none) ∧
    (jsonParse s = none → parseQRData (jsonParse s) = none) ∧
    (∀ j, jsonParse s = some j → (∀ fields, ¬j = .obj fields) →
      parseQRData (jsonParse s) = none) ∧
    (∀ fields, jsonParse s = some (.obj fields) →
      (¬jget fields "type" = some (.str "user_profile") →
        parseQRData (jsonParse s) = none) ∧
      ((jget fields "fullName" = none ∨ jget fields "fullName" = some (.str "")) →
        parseQRData (jsonParse s) = none) ∧
      ((jget fields "email" = none ∨ jget fields "email" = some (.str "")) →
        parseQRData (jsonParse s) = none)) := by
  refine ⟨?_, ?_, ?_, ?_⟩
  · cases h : parseQRData (jsonParse s) with
    | none => exact Or.inr rfl
    | some p => exact Or.inl ⟨p, rfl⟩
  · intro h
    rw [h]
    rfl
  · intro j hj hno
    rw [hj]
    cases j with
    | obj fields => exact absurd rfl (hno fields)
    | null => rfl
    | bool b => rfl
    | num n => rfl
    | str t => rfl
    | arr xs => rfl
  · intro fields hj
    refine ⟨?_, ?_, ?_⟩
    · intro hcond
      have hm : (match jget fields "type" with
          | some (.str t) => t == "user_profile"
          | _ => false) = false := by
        cases hty : jget fields "type" with
        | none => rfl
        | some jt =>
          cases jt with
          | str t =>
            by_cases ht : t = "user_profile"
            · exact absurd (ht ▸ hty) hcond
            · simp [ht]
          | null => rfl
          | bool b => rfl
          | num n => rfl
          | arr xs => rfl
          | obj fs => rfl
      rw [hj]
      simp [parseQRData, hm]
    · intro hcond
      rw [hj]
      rcases hcond with h | h <;> simp [parseQRData, h, truthyOpt, jsTruthy]
    · intro hcond
      rw [hj]
      rcases hcond with h | h <;> simp [parseQRData, h, truthyOpt, jsTruthy]

/-- Acceptance of the `page` field: absent, or coercible to an integer at
least 1. -/
theorem parsePageField_isSome (toNumber : String → Option Int) (o : Option String) :
    (parsePageField toNumber o).isSome ↔
      (∀ s, o = some s → ∃ n, toNumber s = some n ∧ 1 ≤ n) := by
  cases o with
  | none => simp [parsePageField]
  | some s =>
    cases h : toNumber s with
    | none => simp [parsePageField, h]
    | some n => by_cases hn : 1 ≤ n <;> simp [parsePageField, h, hn]

/-- Acceptance of the `limit` field: absent, or coercible to an integer
in `1..100`. -/
theorem parseLimitField_isSome (toNumber : String → Option Int) (o : Option String) :
    (parseLimitField toNumber o).isSome ↔
      (∀ s, o = some s → ∃ n, toNumber s = some n ∧ 1 ≤ n ∧ n ≤ 100) := by
  cases o with
  | none => simp [parseLimitField]
  | some s =>
    cases h : toNumber s with
    | none => simp [parseLimitField, h]
    | some n =>
      by_cases h1 : 1 ≤ n <;> by_cases h2 : n ≤ 100 <;>
        simp [parseLimitField, h, h1, h2]

/-- Acceptance of an enum field: absent, or one of the allowed values. -/
theorem parseEnumField_isSome (values : List String) (o : Option String) :
    (parseEnumField values o).isSome ↔ (∀ s, o = some s → s ∈ values) := by
  cases o with
  | none => simp [parseEnumField]
  | some s => by_cases h : s ∈ values <;> simp [parseEnumField, h]

/-- A parsed `page` value is at least 1 and is absent when the input key
was absent. -/
theorem parsePageField_sound (toNumber : String → Option Int) (o : Option String)
    (p : Option Int) (h : parsePageField toNumber o = some p) :
    (∀ n, p = some n → 1 ≤ n) ∧ (o = none → p = none) := by
  cases o with
  | none =>
    simp [parsePageField] at h
    exact ⟨fun n hn => Option.noConfusion (h.trans hn), fun _ => h.symm⟩
  | some s =>
    cases ht : toNumber s with
    | none => simp [parsePageField, ht] at h
    | some n =>
      by_cases hn : 1 ≤ n
      · simp [parsePageField, ht, hn] at h
        refine ⟨fun m hm => ?_, fun hno => Option.noConfusion hno⟩
        rw [← h] at hm
        injection hm with h2
        rw [← h2]
        exact hn
      · simp [parsePageField, ht, hn] at h

/-- A parsed `limit` value is in `1..100` and is absent when the input
key was absent. -/
theorem parseLimitField_sound (toNumber : String → Option Int) (o : Option String)
    (p : Option Int) (h : parseLimitField toNumber o = some p) :
    (∀ n, p = some n → 1 ≤ n ∧ n ≤ 100) ∧ (o = none → p = none) := by
  cases o with
  | none =>
    simp [parseLimitField] at h
    exact ⟨fun n hn => Option.noConfusion (h.trans hn), fun _ => h.symm⟩
  | some s =>
    cases ht : toNumber s with
    | none => simp [parseLimitField, ht] at h
    | some n =>
      by_cases h1 : 1 ≤ n ∧ n ≤ 100
      · have hb : (1 ≤ n && n ≤ 100) = true := by simp [h1.1, h1.2]
        simp [parseLimitField, ht, hb] at h
        refine ⟨fun m hm => ?_, fun hno => Option.noConfusion hno⟩
        rw [← h] at hm
        injection hm with h2
        rw [← h2]
        exact h1
      · have hb : (1 ≤ n && n ≤ 100) = false := by
          rcases not_and_or.mp h1 with h2 | h2 <;> simp [h2]
        simp [parseLimitField, ht, hb] at h

/-- A parsed enum value is among the allowed values and is absent when
the input key was absent. -/
theorem parseEnumField_sound (values : List String) (o : Option String)
    (p : Option String) (h : parseEnumField values o = some p) :
    (∀ s, p = some s → s ∈ values) ∧ (o = none → p = none) := by
  cases o with
  | none =>
    simp [parseEnumField] at h
    exact ⟨fun s hs => Option.noConfusion (h.trans hs), fun _ => h.symm⟩
  | some s =>
    by_cases hs : s ∈ values
    · simp [parseEnumField, hs] at h
      refine ⟨fun t ht => ?_, fun hno => Option.noConfusion hno⟩
      rw [← h] at ht
      injection ht with h2
      rw [← h2]
      exact hs
    · simp [parseEnumField, hs] at h

/-- C8: getUsersQuerySchema accepts a query exactly when `page` is absent
or an integer at least 1, `limit` absent or an integer in `1..100`,
`sortBy` absent or one of fullName/email/createdAt/updatedAt and
`sortOrder` absent or asc/desc — out-of-range and malformed values fail
instead of being clamped — and on every accepted query the service-side
effective values (after the `||` defaults of getUsers) are in range, with
the documented defaults for absent keys. -/
theorem getUsersQuerySchema_contract (toNumber : String → Option Int)
    (inp : GetUsersQueryInput) :
    ((getUsersQuerySchemaParse toNumber inp).isSome ↔
      (∀ s, inp.page = some s → ∃ n, toNumber s = some n ∧ 1 ≤ n) ∧
      (∀ s, inp.limit = some s → ∃ n, toNumber s = some n ∧ 1 ≤ n ∧ n ≤ 100) ∧
      (∀ s, inp.sortBy = some s → s ∈ sortByValues) ∧
      (∀ s, inp.sortOrder = some s → s ∈ sortOrderValues)) ∧
    (∀ q, getUsersQuerySchemaParse toNumber inp = some q →
      1 ≤ jsOrInt q.page 1 ∧
      1 ≤ jsOrInt q.limit 10 ∧ jsOrInt q.limit 10 ≤ 100 ∧
      jsOrString q.sortBy "createdAt" ∈ sortByValues ∧
      jsOrString q.sortOrder "desc" ∈ sortOrderValues ∧
      (inp.page = none → jsOrInt q.page 1 = 1) ∧
      (inp.limit = none → jsOrInt q.limit 10 = 10) ∧
      (inp.sortBy = none → jsOrString q.sortBy "createdAt" = "createdAt") ∧
      (inp.sortOrder = none → jsOrString q.sortOrder "desc" = "desc")) := by
  constructor
  · rw [← parsePageField_isSome toNumber inp.page,
      ← parseLimitField_isSome toNumber inp.limit,
      ← parseEnumField_isSome sortByValues inp.sortBy,
      ← parseEnumField_isSome sortOrderValues inp.sortOrder]
    unfold getUsersQuerySchemaParse
    cases parsePageField toNumber inp.page <;>
      cases parseLimitField toNumber inp.limit <;>
        cases parseEnumField sortByValues inp.sortBy <;>
          cases parseEnumField sortOrderValues inp.sortOrder <;> simp
  · intro q hq
    rcases ha : parsePageField toNumber inp.page with _ | p
    · simp [getUsersQuerySchemaParse, ha] at hq
    rcases hb : parseLimitField toNumber inp.limit with _ | l
    · simp [getUsersQuerySchemaParse, ha, hb] at hq
    rcases hc : parseEnumField sortByValues inp.sortBy with _ | sb
    · simp [getUsersQuerySchemaParse, ha, hb, hc] at hq
    rcases hd : parseEnumField sortOrderValues inp.sortOrder with _ | so
    · simp [getUsersQuerySchemaParse, ha, hb, hc, hd] at hq
    simp [getUsersQuerySchemaParse, ha, hb, hc, hd] at hq
    obtain ⟨hp1, hp2⟩ := parsePageField_sound toNumber inp.page p ha
    obtain ⟨hl1, hl2⟩ := parseLimitField_sound toNumber inp.limit l hb
    obtain ⟨hsb1, hsb2⟩ := parseEnumField_sound sortByValues inp.sortBy sb hc
    obtain ⟨hso1, hso2⟩ := parseEnumField_sound sortOrderValues inp.sortOrder so hd
    subst hq
    refine ⟨?_, ?_, ?_, ?_, ?_, ?_, ?_, ?_, ?_⟩
    · cases p with
      | none => simp [jsOrInt]
      | some n =>
        by_cases hn : n = 0 <;> simp [jsOrInt, hn]
        exact hp1 n rfl
    · cases l with
      | none => simp [jsOrInt]
      | some n =>
        by_cases hn : n = 0 <;> simp [jsOrInt, hn]
        exact (hl1 n rfl).1
    · cases l with
      | none => simp [jsOrInt]
      | some n =>
        by_cases hn : n = 0 <;> simp [jsOrInt, hn]
        exact (hl1 n rfl).2
    · cases sb with
      | none => simp [jsOrString, sortByValues]
      | some s =>
        by_cases hs : s = "" <;> simp [jsOrString, hs, sortByValues]
        · have := hsb1 s rfl
          simpa [sortByValues] using this
    · cases so with
      | none => simp [jsOrString, sortOrderValues]
      | some s =>
        by_cases hs : s = "" <;> simp [jsOrString, hs, sortOrderValues]
        · have := hso1 s rfl
          simpa [sortOrderValues] using this
    · intro h
      rw [hp2 h]
      simp [jsOrInt]
    · intro h
      rw [hl2 h]
      simp [jsOrInt]
    · intro h
      rw [hsb2 h]
      simp [jsOrString]
    · intro h
      rw [hso2 h]
      simp [jsOrString]

/-- Ceiling division on naturals, `Math.ceil(a / b)` for `b ≥ 1`, equals
the `(a + b - 1) / b` form the service's model uses. -/
theorem natCeilDiv_cast_eq_ceil (a b : ℕ) (hb : 1 ≤ b) :
    (((a + b - 1) / b : ℕ) : ℤ) = ⌈(a : ℚ) / (b : ℚ)⌉ := by
  have hb0 : (0:ℚ) < b := by exact_mod_cast hb
  have hub : ((a + b - 1) / b) * b ≤ a + b - 1 := Nat.div_mul_le_self _ _
  have hlb : a ≤ ((a + b - 1) / b) * b := by
    have h1 := Nat.div_add_mod (a + b - 1) b
    have h2 := Nat.mod_lt (a + b - 1) (show 0 < b by omega)
    have h3 : ((a + b - 1) / b) * b = b * ((a + b - 1) / b) := Nat.mul_comm _ _
    omega
  have hcast : ((a + b - 1 : ℕ) : ℚ) = (a : ℚ) + b - 1 := by
    have h4 : 1 ≤ a + b := by omega
    push_cast [Nat.cast_sub h4]
    ring
  have hq : (((a + b - 1) / b : ℕ) : ℚ) * b ≤ (a:ℚ) + b - 1 := by
    calc (((a + b - 1) / b : ℕ) : ℚ) * b = ((((a + b - 1) / b) * b : ℕ) : ℚ) := by
          push_cast
          ring
      _ ≤ ((a + b - 1 : ℕ) : ℚ) := by exact_mod_cast hub
      _ = (a : ℚ) + b - 1 := hcast
  have hq2 : (a : ℚ) ≤ (((a + b - 1) / b : ℕ) : ℚ) * b := by
    calc (a : ℚ) ≤ ((((a + b - 1) / b) * b : ℕ) : ℚ) := by exact_mod_cast hlb
      _ = (((a + b - 1) / b : ℕ) : ℚ) * b := by push_cast; ring
  have hb1 : (1:ℚ) ≤ b := by exact_mod_cast hb
  rw [eq_comm, Int.ceil_eq_iff]
  have hzz : (((((a + b - 1) / b : ℕ) : ℤ)) : ℚ) = (((a + b - 1) / b : ℕ) : ℚ) :=
    Int.cast_natCast _
  constructor
  · rw [lt_div_iff₀ hb0, hzz]
    nlinarith [hq, hb1]
  · rw [div_le_iff₀ hb0, hzz]
    exact hq2

/-- C1: under the bounds validation establishes (effective page and limit
at least 1), getUsers returns at most `limit` rows, taken from the
filtered and sorted table with `skip = (page-1)*limit`, and its
pagination metadata satisfies `totalPages = ceil(total/limit)`,
`hasNext = page < totalPages` and `hasPrevious = page > 1`, where `total`
counts the rows matching the filters ignoring pagination. -/
theorem getUsers_pagination_contract (db : List User) (q : GetUsersQuery)
    (hpage : 1 ≤ jsOrInt q.page 1) (hlimit : 1 ≤ jsOrInt q.limit 10) :
    ((getUsers db q).users.length : ℤ) ≤ (getUsers db q).pagination.limit ∧
    (getUsers db q).pagination.totalPages =
      ⌈((getUsers db q).pagination.total : ℚ) / ((getUsers db q).pagination.limit : ℚ)⌉ ∧
    ((getUsers db q).pagination.hasNext = true ↔
      (getUsers db q).pagination.page < (getUsers db q).pagination.totalPages) ∧
    ((getUsers db q).pagination.hasPrevious = true ↔ 1 < (getUsers db q).pagination.page) ∧
    (getUsers db q).pagination.page = jsOrInt q.page 1 ∧
    (getUsers db q).pagination.limit = jsOrInt q.limit 10 ∧
    (getUsers db q).pagination.total = (db.filter (matchesWhere q)).length ∧
    (getUsers db q).users =
      ((sortUsers (jsOrString q.sortBy "createdAt") (jsOrString q.sortOrder "desc")
          (db.filter (matchesWhere q))).drop
        (((jsOrInt q.page 1 - 1) * jsOrInt q.limit 10).toNat)).take
        (jsOrInt q.limit 10).toNat := by
  have hbn : 1 ≤ (jsOrInt q.limit 10).toNat := by omega
  have hlim : ((jsOrInt q.limit 10).toNat : ℤ) = jsOrInt q.limit 10 :=
    Int.toNat_of_nonneg (by omega)
  refine ⟨?_, ?_, decide_eq_true_iff, decide_eq_true_iff, rfl, rfl, rfl, rfl⟩
  · have h1 : (getUsers db q).users.length ≤ (jsOrInt q.limit 10).toNat :=
      List.length_take_le _ _
    calc ((getUsers db q).users.length : ℤ) ≤ ((jsOrInt q.limit 10).toNat : ℤ) := by
          exact_mod_cast h1
      _ = jsOrInt q.limit 10 := hlim
  · show ((((db.filter (matchesWhere q)).length + (jsOrInt q.limit 10).toNat - 1) /
        (jsOrInt q.limit 10).toNat : ℕ) : ℤ) =
      ⌈(((db.filter (matchesWhere q)).length : ℕ) : ℚ) / ((jsOrInt q.limit 10 : ℤ) : ℚ)⌉
    rw [natCeilDiv_cast_eq_ceil ((db.filter (matchesWhere q)).length)
      ((jsOrInt q.limit 10).toNat) hbn]
    have h3 : (((jsOrInt q.limit 10).toNat : ℕ) : ℚ) = ((jsOrInt q.limit 10 : ℤ) : ℚ) := by
      exact_mod_cast hlim
    rw [h3]

/-- Witness for C1 on a three-row table with `page = 2`, `limit = 2`. -/
theorem getUsers_pagination_contract_witness :
    ((getUsers
        [{ id := "1", fullName := "A", email := "a@x.com" },
         { id := "2", fullName := "B", email := "b@x.com" },
         { id := "3", fullName := "C", email := "c@x.com" }]
        { page := some 2, limit := some 2 }).users.length : ℤ) ≤
      (getUsers
        [{ id := "1", fullName := "A", email := "a@x.com" },
         { id := "2", fullName := "B", email := "b@x.com" },
         { id := "3", fullName := "C", email := "c@x.com" }]
        { page := some 2, limit := some 2 }).pagination.limit :=
  (getUsers_pagination_contract
    [{ id := "1", fullName := "A", email := "a@x.com" },
     { id := "2", fullName := "B", email := "b@x.com" },
     { id := "3", fullName := "C", email := "c@x.com" }]
    { page := some 2, limit := some 2 } (by decide) (by decide)).1

/-- C2: with a nonempty search term, the `where` clause keeps exactly the
rows whose fullName, email or bio contains the term case-insensitively
(ANDed with the location filter when one is given); `total` counts that
filtered set, and every row of the returned page matches the search
disjunction — a user matching none of the three fields is excluded. -/
theorem getUsers_search_filter (db : List User) (q : GetUsersQuery) (s : String)
    (hs : q.search = some s) (hne : ¬s = "") :
    (∀ u : User, u ∈ db.filter (matchesWhere q) ↔
      (u ∈ db ∧
        (containsCI u.fullName s || containsCI u.email s || optContainsCI u.bio s) = true ∧
        (match q.location with
         | some l => l = "" ∨ optContainsCI u.location l = true
         | none => True))) ∧
    (getUsers db q).pagination.total = (db.filter (matchesWhere q)).length ∧
    (∀ u, u ∈ (getUsers db q).users →
      (containsCI u.fullName s || containsCI u.email s || optContainsCI u.bio s) = true) := by
  have hmw : ∀ u, matchesWhere q u = (searchMatches s u &&
      (match q.location with
       | some l => if l = "" then true else optContainsCI u.location l
       | none => true)) := by
    intro u
    rw [matchesWhere, hs]
    simp [hne]
  refine ⟨?_, rfl, ?_⟩
  · intro u
    rw [List.mem_filter, hmw u]
    cases hloc : q.location with
    | none => simp [searchMatches]
    | some l =>
      by_cases hl2 : l = ""
      · simp [searchMatches, hl2]
      · simp [searchMatches, hl2, and_assoc]
  · intro u hu
    have h1 : u ∈ (sortUsers (jsOrString q.sortBy "createdAt") (jsOrString q.sortOrder "desc")
        (db.filter (matchesWhere q))) :=
      List.mem_of_mem_drop (List.mem_of_mem_take hu)
    have h2 : u ∈ db.filter (matchesWhere q) := by
      rw [sortUsers] at h1
      exact List.mem_mergeSort.mp h1
    have h3 : matchesWhere q u = true := (List.mem_filter.mp h2).2
    rw [hmw u] at h3
    exact (Bool.and_eq_true _ _ ▸ h3).1

/-- Witness for C2: a one-row table searched for "alice". -/
theorem getUsers_search_filter_witness :
    (getUsers [{ id := "1", fullName := "Alice", email := "alice@x.com" }]
        { search := some "alice" }).pagination.total =
      ([{ id := "1", fullName := "Alice", email := "alice@x.com" }].filter
        (matchesWhere { search := some "alice" })).length :=
  (getUsers_search_filter [{ id := "1", fullName := "Alice", email := "alice@x.com" }]
    { search := some "alice" } "alice" rfl (by decide)).2.1

end Upm
